import Mathlib

/-!
# Verification of the buzzline consumer pipelines

Shallow embedding of the two consumer scripts
(`src/consumers/project_consumer_philip.py`, the chart variant, and
`src/consumers/project_consumer_philipv2.py`, the database variant),
together with the pieces of the shared pipeline design that the spec
documents for the third (mean-sentiment) variant.
-/

namespace Buzzline

/-- A parsed JSON value, as produced by `json.loads`.  Numbers are modelled
exactly as rationals; an `obj` is the parsed dictionary, so its key list is
duplicate-free by construction of the Python dict. -/
inductive Json where
  | null : Json
  | bool (b : Bool) : Json
  | num (q : Rat) : Json
  | str (s : String) : Json
  | arr (elems : List Json) : Json
  | obj (fields : List (String × Json)) : Json

/-- Whether a Python value obtained from JSON is hashable and can be a dict
key: `None`, booleans, numbers and strings are; lists and dicts raise
`TypeError` when used as a key. -/
def hashable : Json → Bool
  | .arr _ => false
  | .obj _ => false
  | _ => true

/-- Python `==` between hashable values obtained from JSON, as dict key
lookup uses it: `True == 1` and `False == 0` (a bool is an int in Python), a
number equals a number of the same value, otherwise values of different
kinds differ.  Lists and dicts never reach a key position. -/
def pyKeyEq : Json → Json → Bool
  | .null, .null => true
  | .bool a, .bool b => a == b
  | .bool a, .num q => (if a then (1 : Rat) else 0) == q
  | .num q, .bool b => q == (if b then (1 : Rat) else 0)
  | .num a, .num b => a == b
  | .str a, .str b => a == b
  | _, _ => false

/-- A raw Kafka record value handed to `process_message`: either a string that
`json.loads` rejects (raising `json.JSONDecodeError`), or one that parses to
the given JSON value. -/
inductive Raw where
  | malformed (s : String) : Raw
  | wellFormed (j : Json) : Raw

/-- The behaviour of `json.loads` on a raw record: `none` models the
`json.JSONDecodeError` path, `some j` a successful parse. -/
def parseJson : Raw → Option Json
  | .malformed _ => none
  | .wellFormed j => some j

/-- Python `message_dict.get(key, default)` restricted to the key lookup:
`some v` when the key is present with value `v`, `none` when absent. -/
def getField (fields : List (String × Json)) (k : String) : Option Json :=
  (fields.find? (fun p => p.1 == k)).map Prod.snd

/-- Whether the top-level parsed value is a Python dict
(`isinstance(message_dict, dict)`). -/
def Json.isObj : Json → Bool
  | .obj _ => true
  | _ => false

/-- Whether a raw record parses to a JSON object (a dict). -/
def parsesToObject (r : Raw) : Bool :=
  match parseJson r with
  | some j => j.isObj
  | none => false

/-- Which branch one `process_message` call took, identified by the log call
that branch makes in the source. -/
inductive Outcome where
  | ok
  | malformed
  | notAnObject
  | writeFailed
  | processingError

/-- The `logger.error` text each failure branch emits in the source
(the f-string prefix before the interpolated value); `none` for the success
branch, which logs no error.  `processingError` is the outer
`except Exception` handler, reached for example when a counter key is
unhashable. -/
def errorLog : Outcome → Option String
  | .ok => none
  | .malformed => some "Invalid JSON message: "
  | .notAnObject => some "Expected a dictionary but got: "
  | .writeFailed => some "Error inserting into database: "
  | .processingError => some "Error processing message: "

/-! ## Chart variant: `project_consumer_philip.py` -/

/-- A `defaultdict(int)` keyed by JSON values, in insertion order, as Python
dicts keep it.  Counter entries are created on first access. -/
def CountMap : Type := List (Json × Nat)

/-- Python `counts[key] += 1` on a `defaultdict(int)`: the first entry whose key is
equal to `k` is incremented; if none exists, a fresh entry `(k, 1)` is
appended (0 from the int default, plus 1). -/
def bump (k : Json) : List (Json × Nat) → List (Json × Nat)
  | [] => [(k, 1)]
  | (k', c) :: rest =>
      if pyKeyEq k k' then (k', c + 1) :: rest else (k', c) :: bump k rest

/-- The count a `defaultdict(int)` associates to key `k` (0 when absent). -/
def lookupCount (k : Json) : List (Json × Nat) → Nat
  | [] => 0
  | (k', c) :: rest => if pyKeyEq k k' then c else lookupCount k rest

/-- Whether key `k` appears in a counter dict (is in its snapshot). -/
def containsKey (k : Json) (l : List (Json × Nat)) : Bool :=
  l.any (fun p => pyKeyEq k p.1)

/-- Sum of all counter values of a dict. -/
def sumCounts (l : List (Json × Nat)) : Nat :=
  (l.map Prod.snd).sum

/-- The two module-level counter dicts of the chart consumer. -/
structure ChartState where
  author_counts : List (Json × Nat)
  category_counts : List (Json × Nat)

/-- The state at process start: both `defaultdict(int)` are empty. -/
def initialChartState : ChartState := ⟨[], []⟩

/-- The value the chart consumer uses as author key:
`message_dict.get("author", "unknown")`. -/
def authorOf (fields : List (String × Json)) : Json :=
  (getField fields "author").getD (.str "unknown")

/-- The value the chart consumer uses as category key:
`message_dict.get("category", "unknown")`. -/
def categoryOf (fields : List (String × Json)) : Json :=
  (getField fields "category").getD (.str "unknown")

/-- One `process_message` call of the chart consumer: parse the raw string; on
a dict, read `author` and `category` (default `"unknown"`), then run
`author_counts[author] += 1` followed by `category_counts[category] += 1`.
An unhashable (list- or dict-valued) key raises `TypeError` at its increment,
caught by the outer `except Exception`: an unhashable author aborts before
either increment, an unhashable category aborts after the author increment.
Otherwise log and leave the state unchanged. -/
def chartProcess (st : ChartState) (r : Raw) : ChartState × Outcome :=
  match parseJson r with
  | none => (st, .malformed)
  | some (.obj fields) =>
      if hashable (authorOf fields) then
        if hashable (categoryOf fields) then
          ({ author_counts := bump (authorOf fields) st.author_counts,
             category_counts := bump (categoryOf fields) st.category_counts }, .ok)
        else
          ({ st with author_counts := bump (authorOf fields) st.author_counts },
           .processingError)
      else (st, .processingError)
  | some _ => (st, .notAnObject)

/-- The consumer loop body applied to a whole list of raw records in order. -/
def chartProcessAll : List Raw → ChartState → ChartState
  | [], st => st
  | r :: rest, st => chartProcessAll rest (chartProcess st r).1

/-! ## Database variant: `project_consumer_philipv2.py` -/

/-- One row of the `messages` table, minus the autoincrement `id`.  Python
passes the extracted values straight to the insert, so a column holds either
the JSON field value verbatim or the string `"unknown"`. -/
structure Row where
  message : Json
  author : Json
  timestamp : Json
  category : Json
  sentiment : Json
  keyword_mentioned : Json
  message_length : Json

/-- Field extraction of the database `process_message`: every one of the seven
fields defaults to the string `"unknown"` when absent from the dict. -/
def rowOfFields (fields : List (String × Json)) : Row :=
  { message := (getField fields "message").getD (.str "unknown"),
    author := (getField fields "author").getD (.str "unknown"),
    timestamp := (getField fields "timestamp").getD (.str "unknown"),
    category := (getField fields "category").getD (.str "unknown"),
    sentiment := (getField fields "sentiment").getD (.str "unknown"),
    keyword_mentioned := (getField fields "keyword_mentioned").getD (.str "unknown"),
    message_length := (getField fields "message_length").getD (.str "unknown") }

/-- An error raised by the sqlite layer; all three are subclasses of
`sqlite3.Error`: `OperationalError` (missing or duplicate table),
`IntegrityError` (NOT NULL constraint violation) and `InterfaceError`
(a parameter value sqlite cannot bind). -/
inductive SqlError where
  | operationalError (msg : String)
  | integrityError (msg : String)
  | interfaceError (msg : String)

/-- Whether a Python value obtained from JSON binds as a sqlite parameter:
`None`, booleans (ints in Python), numbers and strings do; a list or dict
raises `InterfaceError` at `execute`. -/
def bindable : Json → Bool
  | .arr _ => false
  | .obj _ => false
  | _ => true

/-- Whether the value is JSON `null` (Python `None`). -/
def isNull : Json → Bool
  | .null => true
  | _ => false

/-- Whether all seven parameters of the insert are sqlite-bindable. -/
def rowBindable (r : Row) : Bool :=
  bindable r.message && bindable r.author && bindable r.timestamp &&
  bindable r.category && bindable r.sentiment &&
  bindable r.keyword_mentioned && bindable r.message_length

/-- Whether the row satisfies the schema's NOT NULL constraints, which hold
on the `message`, `author` and `timestamp` columns only. -/
def rowNotNullOk (r : Row) : Bool :=
  !(isNull r.message) && !(isNull r.author) && !(isNull r.timestamp)

/-- Whether the insert of this row succeeds once the table exists: all
parameters bindable and no NOT NULL column null (other type mismatches are
absorbed by sqlite's type affinity and succeed). -/
def insertableRow (r : Row) : Bool :=
  rowBindable r && rowNotNullOk r

/-- The `data/buzzline.db` store: which tables exist, and the rows of the
`messages` table in insertion order. -/
structure DbState where
  tables : List String
  rows : List Row

/-- A freshly created store: no tables, no rows. -/
def emptyDb : DbState := ⟨[], []⟩

/-- The `CREATE TABLE messages (...)` statement: sqlite raises
`OperationalError` when the table already exists (no `IF NOT EXISTS`). -/
def createTableMessages (s : DbState) : Except SqlError DbState :=
  if "messages" ∈ s.tables then
    .error (.operationalError "table messages already exists")
  else
    .ok { s with tables := s.tables ++ ["messages"] }

/-- The `update_db` function: try to create the `messages` table; a `sql.OperationalError`
is caught and logged ("Database already exists.").  The second component
records whether an exception escaped to the caller — the except clause
swallows the only possible error, so it never does. -/
def update_db (s : DbState) : DbState × Bool :=
  match createTableMessages s with
  | .ok s' => (s', false)
  | .error _ => (s, false)

/-- The `INSERT INTO messages ... VALUES (?, ...)` statement: raises
`OperationalError` when the `messages` table does not exist,
`InterfaceError` when a parameter is a list or dict, `IntegrityError` when a
NOT NULL column receives `None`; otherwise appends the row. -/
def insertRow (s : DbState) (row : Row) : Except SqlError DbState :=
  if "messages" ∈ s.tables then
    if rowBindable row then
      if rowNotNullOk row then
        .ok { s with rows := s.rows ++ [row] }
      else
        .error (.integrityError "NOT NULL constraint failed")
    else
      .error (.interfaceError "unsupported parameter type")
  else
    .error (.operationalError "no such table: messages")

/-- One `process_message` call of the database consumer: parse; on a dict,
extract the seven fields (default `"unknown"`) and insert one row, catching
any `sql.Error` (the event is dropped, the failure logged); otherwise log and
leave the store unchanged. -/
def dbProcess (st : DbState) (r : Raw) : DbState × Outcome :=
  match parseJson r with
  | none => (st, .malformed)
  | some (.obj fields) =>
      match insertRow st (rowOfFields fields) with
      | .ok st' => (st', .ok)
      | .error _ => (st, .writeFailed)
  | some _ => (st, .notAnObject)

/-- The consumer loop body of the database variant over a list of records. -/
def dbProcessAll : List Raw → DbState → DbState
  | [], st => st
  | r :: rest, st => dbProcessAll rest (dbProcess st r).1

/-! ## Configuration getters (identical in both scripts) -/

/-- The process environment: a partial map from variable names to values. -/
def Env : Type := String → Option String

/-- Python `os.getenv(key, default)`. -/
def osGetenv (env : Env) (key dflt : String) : String :=
  (env key).getD dflt

/-- The getter `get_kafka_topic`: `os.getenv("PROJECT_TOPIC", "buzzline-topic")`. -/
def get_kafka_topic (env : Env) : String :=
  osGetenv env "PROJECT_TOPIC" "buzzline-topic"

/-- The getter `get_kafka_consumer_group_id`: also reads
`os.getenv("PROJECT_TOPIC", "buzzline-topic")`. -/
def get_kafka_consumer_group_id (env : Env) : String :=
  osGetenv env "PROJECT_TOPIC" "buzzline-topic"

/-! ## The control loop of `main` (identical try/except/finally shape in both
scripts) -/

/-- The source adapter handle; we track how many times `close()` ran. -/
structure KafkaConsumer where
  closeCount : Nat

/-- Python `consumer.close()`. -/
def KafkaConsumer.close (c : KafkaConsumer) : KafkaConsumer :=
  { closeCount := c.closeCount + 1 }

/-- How the `for message in consumer` loop ends: the iterator is exhausted, a
`KeyboardInterrupt` arrives after `k` records, or another exception is raised
while consuming after `k` records. -/
inductive LoopExit where
  | completed
  | interrupted (k : Nat)
  | sourceFailed (k : Nat)

/-- The records actually handed to `process_message` before the loop ends. -/
def deliveredRecords (rs : List Raw) : LoopExit → List Raw
  | .completed => rs
  | .interrupted k => rs.take k
  | .sourceFailed k => rs.take k

/-- The `main` function of the chart consumer: the try block processes the delivered
records, both except clauses swallow their exception, and the finally clause
closes the consumer. -/
def chartMain (rs : List Raw) (e : LoopExit) (st : ChartState)
    (c : KafkaConsumer) : ChartState × KafkaConsumer :=
  let st' := chartProcessAll (deliveredRecords rs e) st
  (st', c.close)

/-- The `main` function of the database consumer: `update_db()` runs first, then the same
try/except/finally consuming loop. -/
def dbMain (rs : List Raw) (e : LoopExit) (st : DbState)
    (c : KafkaConsumer) : DbState × KafkaConsumer :=
  let st0 := (update_db st).1
  let st' := dbProcessAll (deliveredRecords rs e) st0
  (st', c.close)

/-! ## Record decoder under the chart-sink default policy -/

/-- The structured form of one decoded message.  A present-but-wrong-typed
field is passed through unchanged, so every field holds a JSON value. -/
structure Event where
  message : Json
  author : Json
  timestamp : Json
  category : Json
  sentiment : Json
  keyword_mentioned : Json
  message_length : Json

/-- The decoder's failure conditions: malformed syntax, or a well-formed
payload whose top-level value is not a key-value mapping. -/
inductive DecodeError where
  | malformed
  | notAnObject

/-- Modelled from the spec: only the `author` and `category` extractions (both
defaulting to `"unknown"`) appear in the chart script under src
(`project_consumer_philip.py`); the full seven-field chart-sink decode is in
the mean-sentiment chart variant, which is not among the files under src.
Per the spec's Event invariant and example scenario, the remaining defaults
are `""` for the text fields `message`, `timestamp` and `keyword_mentioned`,
`0.0` for `sentiment` and `0` for `message_length`. -/
def chartEventOfFields (fields : List (String × Json)) : Event :=
  { message := (getField fields "message").getD (.str ""),
    author := (getField fields "author").getD (.str "unknown"),
    timestamp := (getField fields "timestamp").getD (.str ""),
    category := (getField fields "category").getD (.str "unknown"),
    sentiment := (getField fields "sentiment").getD (.num 0),
    keyword_mentioned := (getField fields "keyword_mentioned").getD (.str ""),
    message_length := (getField fields "message_length").getD (.num 0) }

/-- The record decoder under the chart-sink default policy: parse, require a
key-value mapping at top level, and extract the seven fields with their
chart-sink defaults. -/
def chartDecode (r : Raw) : Except DecodeError Event :=
  match parseJson r with
  | none => .error .malformed
  | some (.obj fields) => .ok (chartEventOfFields fields)
  | some _ => .error .notAnObject

/-! ## Mean-sentiment-by-author aggregate (spec §4.2) -/

/-- Modelled from the spec: the input to the mean-sentiment-by-author chart
sink, which maintains, for each author seen, the arithmetic mean of
`sentiment` across all events from that author.  The variant's script is not
among the files under src.  Sentiments are modelled as exact rationals. -/
structure SentimentEvent where
  author : String
  sentiment : Rat

/-- Modelled from the spec: the full-history variant appends each event to a
growing table; this is its state after recording a list of events. -/
def historyRecordAll (h : List SentimentEvent) (events : List SentimentEvent) :
    List SentimentEvent :=
  h ++ events

/-- The retained sentiments of one author, in arrival order. -/
def authorSentiments (h : List SentimentEvent) (a : String) : List Rat :=
  (h.filter (fun e => e.author = a)).map (fun e => e.sentiment)

/-- Modelled from the spec: the mean recomputed from the full retained
history — the sentiments of the author's events, summed, divided by how many
there are (0 when the author has no events). -/
def historyMean (h : List SentimentEvent) (a : String) : Rat :=
  (authorSentiments h a).sum / ((authorSentiments h a).length : Rat)

/-- Modelled from the spec: recording one event incrementally — add its
sentiment to the author's running sum and bump the count, creating the entry
`(author, sentiment, 1)` on first sight. -/
def incRecord : List (String × Rat × Nat) → SentimentEvent → List (String × Rat × Nat)
  | [], e => [(e.author, e.sentiment, 1)]
  | (a, s, c) :: rest, e =>
      if e.author = a then (a, s + e.sentiment, c + 1) :: rest
      else (a, s, c) :: incRecord rest e

/-- Modelled from the spec: recording a whole list of events in order. -/
def incRecordAll (st : List (String × Rat × Nat)) (events : List SentimentEvent) :
    List (String × Rat × Nat) :=
  events.foldl incRecord st

/-- The running (sum, count) pair an incremental state holds for an author
(`(0, 0)` for an unseen author). -/
def incLookup : List (String × Rat × Nat) → String → Rat × Nat
  | [], _ => (0, 0)
  | (b, s, c) :: rest, a => if b = a then (s, c) else incLookup rest a

/-- Modelled from the spec: the mean the incremental variant reports for an
author — running sum divided by running count (0 for an unseen author, since
division by zero is zero). -/
def incMean (st : List (String × Rat × Nat)) (a : String) : Rat :=
  (incLookup st a).1 / ((incLookup st a).2 : Rat)

/-! ## Further helpers used by the statements -/

/-- How many raw records of a list parse to a JSON object. -/
def countObjects (rs : List Raw) : Nat :=
  (rs.filter parsesToObject).length

/-- The field list of a record that parses to a JSON object
(`[]` for any other record). -/
def objFields (r : Raw) : List (String × Json) :=
  match parseJson r with
  | some (.obj fields) => fields
  | _ => []

/-- The author key the chart consumer would extract from a record. -/
def authorKey (r : Raw) : Json :=
  authorOf (objFields r)

/-- The category key the chart consumer would extract from a record. -/
def categoryKey (r : Raw) : Json :=
  categoryOf (objFields r)

/-- The spec's example payload:
`{"message":"hi","author":"Eve","category":"humor","sentiment":0.5}`. -/
def examplePayload : Raw :=
  .wellFormed (.obj
    [("message", .str "hi"), ("author", .str "Eve"),
     ("category", .str "humor"), ("sentiment", .num (1 / 2))])

/-- The event the spec expects for `examplePayload` under the chart-sink
default policy. -/
def exampleEvent : Event :=
  { message := .str "hi", author := .str "Eve", timestamp := .str "",
    category := .str "humor", sentiment := .num (1 / 2),
    keyword_mentioned := .str "", message_length := .num 0 }

/-! ## Theorems -/

/-- C9: For every environment, `get_kafka_consumer_group_id` returns exactly
the same string as `get_kafka_topic`: both read the single environment
variable `PROJECT_TOPIC` with default `"buzzline-topic"`, so the consumer
group id always equals the topic name and cannot be configured independently
of it. -/
theorem group_id_always_equals_topic (env : Env) :
    get_kafka_consumer_group_id env = get_kafka_topic env ∧
    get_kafka_topic env = (env "PROJECT_TOPIC").getD "buzzline-topic" ∧
    get_kafka_consumer_group_id env = (env "PROJECT_TOPIC").getD "buzzline-topic" :=
  ⟨rfl, rfl, rfl⟩

/-- C7: On every exit path of the control loop — clean completion, user
interruption, or any other failure while consuming — the source adapter's
`close()` runs exactly once, in both consumer variants. -/
theorem close_called_once_on_every_exit (rs : List Raw) (e : LoopExit)
    (cst : ChartState) (dst : DbState) (c : KafkaConsumer) :
    (chartMain rs e cst c).2.closeCount = c.closeCount + 1 ∧
    (dbMain rs e dst c).2.closeCount = c.closeCount + 1 :=
  ⟨rfl, rfl⟩

/-- C2: A syntactically invalid payload fails with the malformed-decode
condition, changes no sink state (no counter incremented, no row inserted),
and the loop continues with the remaining records exactly as if the bad
record were not there. -/
theorem malformed_payload_isolated (s : String) (rest : List Raw)
    (cst : ChartState) (dst : DbState) :
    chartProcess cst (.malformed s) = (cst, .malformed) ∧
    dbProcess dst (.malformed s) = (dst, .malformed) ∧
    chartProcessAll (.malformed s :: rest) cst = chartProcessAll rest cst ∧
    dbProcessAll (.malformed s :: rest) dst = dbProcessAll rest dst :=
  ⟨rfl, rfl, rfl, rfl⟩

/-- C5: Schema creation is idempotent: `update_db` never raises to its
caller, a second call is a no-op on the store, and starting from the empty
store the table list after one or two calls is exactly `["messages"]` — one
table, no duplicate. -/
theorem update_db_idempotent :
    (∀ s : DbState, update_db s = ((update_db s).1, false) ∧
      update_db (update_db s).1 = ((update_db s).1, false)) ∧
    (update_db emptyDb).1.tables = ["messages"] ∧
    (update_db (update_db emptyDb).1).1.tables = ["messages"] := by
  refine ⟨fun s => ?_, by decide, by decide⟩
  by_cases h : "messages" ∈ s.tables
  · simp [update_db, createTableMessages, h]
  · simp [update_db, createTableMessages, h]

/-- C6: A payload that parses but whose top-level value is not a key-value
mapping fails with a condition distinct from malformed syntax — the source
logs a different message than for a JSON syntax error — and no sink is
updated, in either variant. -/
theorem non_object_payload_distinct (j : Json) (h : j.isObj = false)
    (cst : ChartState) (dst : DbState) :
    chartProcess cst (.wellFormed j) = (cst, .notAnObject) ∧
    dbProcess dst (.wellFormed j) = (dst, .notAnObject) ∧
    errorLog .notAnObject ≠ errorLog .malformed := by
  have hlog : errorLog .notAnObject ≠ errorLog .malformed := by decide
  cases j with
  | obj fields => simp [Json.isObj] at h
  | null => exact ⟨rfl, rfl, hlog⟩
  | bool b => exact ⟨rfl, rfl, hlog⟩
  | num q => exact ⟨rfl, rfl, hlog⟩
  | str s => exact ⟨rfl, rfl, hlog⟩
  | arr elems => exact ⟨rfl, rfl, hlog⟩

/-- Witness for C6: the JSON array `[]` is not an object, and processing it
leaves both sinks untouched while reporting the not-an-object condition. -/
theorem non_object_payload_distinct_witness :
    chartProcess initialChartState (.wellFormed (.arr [])) =
        (initialChartState, .notAnObject) ∧
    dbProcess emptyDb (.wellFormed (.arr [])) = (emptyDb, .notAnObject) :=
  ⟨(non_object_payload_distinct (.arr []) rfl initialChartState emptyDb).1,
   (non_object_payload_distinct (.arr []) rfl initialChartState emptyDb).2.1⟩

/-- A record that parses to an object is a well-formed payload whose
top-level value is an object. -/
theorem exists_fields_of_parsesToObject (r : Raw) (h : parsesToObject r = true) :
    ∃ fields, r = .wellFormed (.obj fields) := by
  cases r with
  | malformed s => simp [parsesToObject, parseJson] at h
  | wellFormed j =>
    cases j with
    | obj fields => exact ⟨fields, rfl⟩
    | null => simp [parsesToObject, parseJson, Json.isObj] at h
    | bool b => simp [parsesToObject, parseJson, Json.isObj] at h
    | num q => simp [parsesToObject, parseJson, Json.isObj] at h
    | str s => simp [parsesToObject, parseJson, Json.isObj] at h
    | arr elems => simp [parsesToObject, parseJson, Json.isObj] at h

/-- Rows appended by the database loop over object-parsing payloads whose
extracted rows the insert accepts. -/
theorem dbProcessAll_rows (payloads : List Raw) :
    ∀ s : DbState, (∀ p ∈ payloads, parsesToObject p = true) →
      (∀ p ∈ payloads, insertableRow (rowOfFields (objFields p)) = true) →
      "messages" ∈ s.tables →
      (dbProcessAll payloads s).rows
        = s.rows ++ payloads.map (fun p => rowOfFields (objFields p)) := by
  induction payloads with
  | nil => intro s _ _ _; simp [dbProcessAll]
  | cons p rest ih =>
    intro s hall hins htb
    obtain ⟨fields, rfl⟩ :=
      exists_fields_of_parsesToObject p (hall p (by simp))
    have hin : insertableRow (rowOfFields fields) = true :=
      hins (Raw.wellFormed (Json.obj fields)) (by simp)
    obtain ⟨hbind, hnn⟩ := by simpa [insertableRow] using hin
    have hstep : dbProcess s (.wellFormed (.obj fields))
        = ({ s with rows := s.rows ++ [rowOfFields fields] }, .ok) := by
      simp [dbProcess, parseJson, insertRow, htb, hbind, hnn]
    have hrec : dbProcessAll (Raw.wellFormed (Json.obj fields) :: rest) s
        = dbProcessAll rest { s with rows := s.rows ++ [rowOfFields fields] } := by
      simp [dbProcessAll, hstep]
    rw [hrec, ih { s with rows := s.rows ++ [rowOfFields fields] }
          (fun q hq => hall q (by simp [hq]))
          (fun q hq => hins q (by simp [hq])) htb]
    simp [objFields, parseJson]

/-- Counterexample to C1 as stated: `{"message": null}` parses to a JSON
object, yet the insert violates the `message TEXT NOT NULL` constraint
(`IntegrityError`, a `sqlite3.Error`, caught at the insert's except clause),
the event is dropped, and zero rows — not one — are appended. -/
theorem durable_sink_null_message_counterexample :
    parsesToObject (.wellFormed (.obj [("message", Json.null)])) = true ∧
    (dbProcessAll [.wellFormed (.obj [("message", Json.null)])]
        ⟨["messages"], []⟩).rows.length
      ≠ (⟨["messages"], []⟩ : DbState).rows.length + 1 ∧
    dbProcess ⟨["messages"], []⟩ (.wellFormed (.obj [("message", Json.null)]))
      = (⟨["messages"], []⟩, .writeFailed) := by
  refine ⟨rfl, by decide, rfl⟩

/-- C1 (amended): Processing raw payloads with distinct content that each
parse to a JSON object, and whose seven extracted values the insert accepts
(every value sqlite-bindable — not a list or dict — and none of `message`,
`author`, `timestamp` null), appends exactly one row per payload, each row's
columns holding the corresponding payload fields verbatim with the string
`"unknown"` substituted for every absent field (exactly `rowOfFields`).
Payloads that fail these sqlite checks are dropped by the caught
`sql.Error`, which refutes the unrestricted claim. -/
theorem durable_sink_appends_exactly (payloads : List Raw) (st : DbState)
    (hobj : ∀ p ∈ payloads, parsesToObject p = true)
    (hins : ∀ p ∈ payloads, insertableRow (rowOfFields (objFields p)) = true)
    (_hdist : payloads.Pairwise (fun a b => a ≠ b))
    (htab : "messages" ∈ st.tables) :
    (dbProcessAll payloads st).rows
        = st.rows ++ payloads.map (fun p => rowOfFields (objFields p)) ∧
    (dbProcessAll payloads st).rows.length
        = st.rows.length + payloads.length := by
  have h := dbProcessAll_rows payloads st hobj hins htab
  exact ⟨h, by rw [h]; simp⟩

/-- Witness for C1: two distinct object payloads with insertable rows
appended to a store whose `messages` table exists produce exactly two
rows. -/
theorem durable_sink_appends_exactly_witness :
    (dbProcessAll
        [.wellFormed (.obj [("message", .str "a")]), .wellFormed (.obj [])]
        ⟨["messages"], []⟩).rows.length
      = (⟨["messages"], []⟩ : DbState).rows.length + 2 :=
  (durable_sink_appends_exactly
      [.wellFormed (.obj [("message", .str "a")]), .wellFormed (.obj [])]
      ⟨["messages"], []⟩ (by decide) (by decide) (by simp) (by decide)).2

/-- Incrementing a counter dict raises the sum of its values by one. -/
theorem sumCounts_bump (k : Json) (l : List (Json × Nat)) :
    sumCounts (bump k l) = sumCounts l + 1 := by
  induction l with
  | nil => rfl
  | cons hd tl ih =>
    obtain ⟨k', c⟩ := hd
    by_cases h : pyKeyEq k k' = true
    · simp [bump, h, sumCounts]
      omega
    · simp [bump, h, sumCounts] at ih ⊢
      omega

/-- Processing a list of records whose object payloads carry hashable author
and category keys adds one to each counter sum per record that parses to an
object, and nothing otherwise. -/
theorem chartProcessAll_sum (msgs : List Raw) :
    ∀ st : ChartState,
      (∀ p ∈ msgs, parsesToObject p = true →
        hashable (authorKey p) = true ∧ hashable (categoryKey p) = true) →
      sumCounts (chartProcessAll msgs st).author_counts
          = sumCounts st.author_counts + countObjects msgs ∧
      sumCounts (chartProcessAll msgs st).category_counts
          = sumCounts st.category_counts + countObjects msgs := by
  induction msgs with
  | nil => intro st _; simp [chartProcessAll, countObjects]
  | cons r rest ih =>
    intro st hkeys
    have hrest : ∀ p ∈ rest, parsesToObject p = true →
        hashable (authorKey p) = true ∧ hashable (categoryKey p) = true :=
      fun p hp => hkeys p (by simp [hp])
    cases r with
    | malformed s =>
      have hc : countObjects (Raw.malformed s :: rest) = countObjects rest := by
        simp [countObjects, parsesToObject, parseJson]
      rw [show chartProcessAll (Raw.malformed s :: rest) st
            = chartProcessAll rest st from rfl, hc]
      exact ih st hrest
    | wellFormed j =>
      cases j with
      | obj fields =>
        obtain ⟨ha, hcg⟩ :=
          hkeys (Raw.wellFormed (Json.obj fields)) (by simp) rfl
        have ha' : hashable (authorOf fields) = true := ha
        have hc' : hashable (categoryOf fields) = true := hcg
        have hc : countObjects (Raw.wellFormed (Json.obj fields) :: rest)
            = countObjects rest + 1 := by
          simp [countObjects, parsesToObject, parseJson, Json.isObj]
        have hstep : chartProcess st (.wellFormed (.obj fields))
            = ({ author_counts := bump (authorOf fields) st.author_counts,
                 category_counts := bump (categoryOf fields) st.category_counts },
               .ok) := by
          simp [chartProcess, parseJson, ha', hc']
        have hrec : chartProcessAll (Raw.wellFormed (Json.obj fields) :: rest) st
            = chartProcessAll rest
                { author_counts := bump (authorOf fields) st.author_counts,
                  category_counts := bump (categoryOf fields) st.category_counts } := by
          simp [chartProcessAll, hstep]
        obtain ⟨h1, h2⟩ := ih
          { author_counts := bump (authorOf fields) st.author_counts,
            category_counts := bump (categoryOf fields) st.category_counts } hrest
        rw [hrec, hc]
        constructor
        · rw [h1]; simp only [sumCounts_bump]; omega
        · rw [h2]; simp only [sumCounts_bump]; omega
      | null =>
        have hc : countObjects (Raw.wellFormed Json.null :: rest) = countObjects rest := by
          simp [countObjects, parsesToObject, parseJson, Json.isObj]
        rw [show chartProcessAll (Raw.wellFormed Json.null :: rest) st
              = chartProcessAll rest st from rfl, hc]
        exact ih st hrest
      | bool b =>
        have hc : countObjects (Raw.wellFormed (Json.bool b) :: rest) = countObjects rest := by
          simp [countObjects, parsesToObject, parseJson, Json.isObj]
        rw [show chartProcessAll (Raw.wellFormed (Json.bool b) :: rest) st
              = chartProcessAll rest st from rfl, hc]
        exact ih st hrest
      | num q =>
        have hc : countObjects (Raw.wellFormed (Json.num q) :: rest) = countObjects rest := by
          simp [countObjects, parsesToObject, parseJson, Json.isObj]
        rw [show chartProcessAll (Raw.wellFormed (Json.num q) :: rest) st
              = chartProcessAll rest st from rfl, hc]
        exact ih st hrest
      | str s =>
        have hc : countObjects (Raw.wellFormed (Json.str s) :: rest) = countObjects rest := by
          simp [countObjects, parsesToObject, parseJson, Json.isObj]
        rw [show chartProcessAll (Raw.wellFormed (Json.str s) :: rest) st
              = chartProcessAll rest st from rfl, hc]
        exact ih st hrest
      | arr elems =>
        have hc : countObjects (Raw.wellFormed (Json.arr elems) :: rest) = countObjects rest := by
          simp [countObjects, parsesToObject, parseJson, Json.isObj]
        rw [show chartProcessAll (Raw.wellFormed (Json.arr elems) :: rest) st
              = chartProcessAll rest st from rfl, hc]
        exact ih st hrest

/-- Counterexample to C10 as stated: the payload `{"author": ["x"]}` parses
to a JSON object, but its author value is unhashable, so the source raises
`TypeError` at `author_counts[author] += 1` (caught by `except Exception`)
and increments neither counter — both sums stay 0 while the object count is
1.  With a hashable author and an unhashable category, only the author
counter is incremented, so the two sums also diverge from each other. -/
theorem counter_sums_counterexample :
    countObjects [.wellFormed (.obj [("author", Json.arr [Json.str "x"])])] = 1 ∧
    sumCounts (chartProcessAll
        [.wellFormed (.obj [("author", Json.arr [Json.str "x"])])]
        initialChartState).author_counts = 0 ∧
    sumCounts (chartProcessAll
        [.wellFormed (.obj [("author", Json.arr [Json.str "x"])])]
        initialChartState).category_counts = 0 ∧
    sumCounts (chartProcessAll
        [.wellFormed (.obj [("author", Json.str "a"), ("category", Json.arr [])])]
        initialChartState).author_counts = 1 ∧
    sumCounts (chartProcessAll
        [.wellFormed (.obj [("author", Json.str "a"), ("category", Json.arr [])])]
        initialChartState).category_counts = 0 := by
  refine ⟨rfl, by decide, by decide, by decide, by decide⟩

/-- C10 (amended): After processing any sequence of raw messages whose
object payloads carry hashable (non-list, non-dict) author and category
values through the chart pipeline from its start state, the author counters
and the category counters have the same total, and both totals equal the
number of messages whose payload parsed to a JSON object; each such message
bumps exactly one author and one category counter.  Messages with an
unhashable author bump neither counter, and with an unhashable category only
the author counter, which refutes the unrestricted claim. -/
theorem counter_sums_equal_object_count (msgs : List Raw)
    (hkeys : ∀ p ∈ msgs, parsesToObject p = true →
      hashable (authorKey p) = true ∧ hashable (categoryKey p) = true) :
    sumCounts (chartProcessAll msgs initialChartState).author_counts
        = countObjects msgs ∧
    sumCounts (chartProcessAll msgs initialChartState).category_counts
        = countObjects msgs := by
  have h := chartProcessAll_sum msgs initialChartState hkeys
  simpa [initialChartState, sumCounts] using h

/-- Witness for C10: one object message with string keys and one malformed
record give both counter sums equal to the single object count. -/
theorem counter_sums_equal_object_count_witness :
    sumCounts (chartProcessAll
        [.wellFormed (.obj [("author", .str "Eve")]), .malformed "x"]
        initialChartState).author_counts
      = countObjects [.wellFormed (.obj [("author", .str "Eve")]), .malformed "x"] ∧
    sumCounts (chartProcessAll
        [.wellFormed (.obj [("author", .str "Eve")]), .malformed "x"]
        initialChartState).category_counts
      = countObjects [.wellFormed (.obj [("author", .str "Eve")]), .malformed "x"] :=
  counter_sums_equal_object_count
    [.wellFormed (.obj [("author", .str "Eve")]), .malformed "x"] (by decide)

/-- Incrementing a counter dict never lowers any key's count. -/
theorem lookupCount_bump_le (k q : Json) (l : List (Json × Nat)) :
    lookupCount q l ≤ lookupCount q (bump k l) := by
  induction l with
  | nil => simp [bump, lookupCount]
  | cons hd tl ih =>
    obtain ⟨k', c⟩ := hd
    by_cases h : pyKeyEq k k' = true
    · by_cases h2 : pyKeyEq q k' = true
      · simp [bump, lookupCount, h, h2]
      · simp [bump, lookupCount, h, h2]
    · by_cases h2 : pyKeyEq q k' = true
      · simp [bump, lookupCount, h, h2]
      · simpa [bump, lookupCount, h, h2] using ih

/-- Incrementing a counter dict never drops a key. -/
theorem containsKey_bump (k q : Json) (l : List (Json × Nat))
    (h : containsKey q l = true) : containsKey q (bump k l) = true := by
  induction l with
  | nil => simp [containsKey] at h
  | cons hd tl ih =>
    obtain ⟨k', c⟩ := hd
    by_cases hk : pyKeyEq k k' = true
    · simpa [bump, containsKey, hk] using h
    · by_cases h2 : pyKeyEq q k' = true
      · simp [bump, containsKey, hk, h2]
      · have h' : containsKey q tl = true := by
          simpa [containsKey, h2] using h
        simpa [bump, containsKey, hk, h2] using ih h'

/-- The chart loop only ever bumps counters, so key sets and counts grow. -/
theorem chartProcessAll_mono (msgs : List Raw) :
    ∀ (st : ChartState) (q : Json),
      lookupCount q st.author_counts
          ≤ lookupCount q (chartProcessAll msgs st).author_counts ∧
      (containsKey q st.author_counts = true →
        containsKey q (chartProcessAll msgs st).author_counts = true) ∧
      lookupCount q st.category_counts
          ≤ lookupCount q (chartProcessAll msgs st).category_counts ∧
      (containsKey q st.category_counts = true →
        containsKey q (chartProcessAll msgs st).category_counts = true) := by
  induction msgs with
  | nil => intro st q; simp [chartProcessAll]
  | cons r rest ih =>
    intro st q
    cases r with
    | malformed s => exact ih st q
    | wellFormed j =>
      cases j with
      | obj fields =>
        by_cases ha : hashable (authorOf fields) = true
        · by_cases hcg : hashable (categoryOf fields) = true
          · have hstep : chartProcess st (.wellFormed (.obj fields))
                = ({ author_counts := bump (authorOf fields) st.author_counts,
                     category_counts := bump (categoryOf fields) st.category_counts },
                   .ok) := by
              simp [chartProcess, parseJson, ha, hcg]
            have hrec : chartProcessAll (Raw.wellFormed (Json.obj fields) :: rest) st
                = chartProcessAll rest
                    { author_counts := bump (authorOf fields) st.author_counts,
                      category_counts := bump (categoryOf fields) st.category_counts } := by
              simp [chartProcessAll, hstep]
            rw [hrec]
            obtain ⟨i1, i2, i3, i4⟩ := ih
              { author_counts := bump (authorOf fields) st.author_counts,
                category_counts := bump (categoryOf fields) st.category_counts } q
            exact ⟨le_trans (lookupCount_bump_le _ q st.author_counts) i1,
                   fun hq => i2 (containsKey_bump _ q st.author_counts hq),
                   le_trans (lookupCount_bump_le _ q st.category_counts) i3,
                   fun hq => i4 (containsKey_bump _ q st.category_counts hq)⟩
          · have hstep : chartProcess st (.wellFormed (.obj fields))
                = ({ st with author_counts := bump (authorOf fields) st.author_counts },
                   .processingError) := by
              simp [chartProcess, parseJson, ha, hcg]
            have hrec : chartProcessAll (Raw.wellFormed (Json.obj fields) :: rest) st
                = chartProcessAll rest
                    { st with author_counts := bump (authorOf fields) st.author_counts } := by
              simp [chartProcessAll, hstep]
            rw [hrec]
            obtain ⟨i1, i2, i3, i4⟩ := ih
              { st with author_counts := bump (authorOf fields) st.author_counts } q
            exact ⟨le_trans (lookupCount_bump_le _ q st.author_counts) i1,
                   fun hq => i2 (containsKey_bump _ q st.author_counts hq),
                   i3, i4⟩
        · have hstep : chartProcess st (.wellFormed (.obj fields))
              = (st, .processingError) := by
            simp [chartProcess, parseJson, ha]
          have hrec : chartProcessAll (Raw.wellFormed (Json.obj fields) :: rest) st
              = chartProcessAll rest st := by
            simp [chartProcessAll, hstep]
          rw [hrec]
          exact ih st q
      | null => exact ih st q
      | bool b => exact ih st q
      | num n => exact ih st q
      | str s => exact ih st q
      | arr elems => exact ih st q

/-- C4: Once an author or category key appears in a counter snapshot it
appears in every later snapshot, and the count associated with any key never
decreases across processed events: from any reachable state, processing any
further record sequence preserves key membership and weakly increases every
count, in both mappings. -/
theorem counter_keys_and_counts_monotone (msgs : List Raw) (st : ChartState)
    (q : Json) :
    (containsKey q st.author_counts = true →
      containsKey q (chartProcessAll msgs st).author_counts = true) ∧
    lookupCount q st.author_counts
        ≤ lookupCount q (chartProcessAll msgs st).author_counts ∧
    (containsKey q st.category_counts = true →
      containsKey q (chartProcessAll msgs st).category_counts = true) ∧
    lookupCount q st.category_counts
        ≤ lookupCount q (chartProcessAll msgs st).category_counts := by
  obtain ⟨h1, h2, h3, h4⟩ := chartProcessAll_mono msgs st q
  exact ⟨h2, h1, h4, h3⟩

/-- Witness for C4: the author key `"Eve"` and the category key `"humor"`,
already present in a snapshot, are still present after two further records
(one of them bumping other keys). -/
theorem counter_keys_and_counts_monotone_witness :
    containsKey (.str "Eve")
        ((chartProcessAll [.wellFormed (.obj [("author", .str "Bob")]), .malformed "x"]
            ⟨[(Json.str "Eve", 1)], [(Json.str "humor", 2)]⟩).author_counts) = true ∧
    containsKey (.str "humor")
        ((chartProcessAll [.wellFormed (.obj [("author", .str "Bob")]), .malformed "x"]
            ⟨[(Json.str "Eve", 1)], [(Json.str "humor", 2)]⟩).category_counts) = true :=
  ⟨(counter_keys_and_counts_monotone
      [.wellFormed (.obj [("author", .str "Bob")]), .malformed "x"]
      ⟨[(Json.str "Eve", 1)], [(Json.str "humor", 2)]⟩ (.str "Eve")).1 (by decide),
   (counter_keys_and_counts_monotone
      [.wellFormed (.obj [("author", .str "Bob")]), .malformed "x"]
      ⟨[(Json.str "Eve", 1)], [(Json.str "humor", 2)]⟩ (.str "humor")).2.2.1 (by decide)⟩

/-- C3: Under the chart-sink default policy the spec's example payload (which
lacks `timestamp`, `keyword_mentioned` and `message_length`) decodes to the
documented event; more generally decoding an object payload never fails, and
for each of the seven fields a payload missing that field gets that field's
documented default (`""`, `"unknown"`, `0` or `0.0` depending on field). -/
theorem chart_default_policy (fields : List (String × Json)) :
    chartDecode examplePayload = .ok exampleEvent ∧
    chartDecode (.wellFormed (.obj fields)) = .ok (chartEventOfFields fields) ∧
    (getField fields "message" = none →
      (chartEventOfFields fields).message = .str "") ∧
    (getField fields "author" = none →
      (chartEventOfFields fields).author = .str "unknown") ∧
    (getField fields "timestamp" = none →
      (chartEventOfFields fields).timestamp = .str "") ∧
    (getField fields "category" = none →
      (chartEventOfFields fields).category = .str "unknown") ∧
    (getField fields "sentiment" = none →
      (chartEventOfFields fields).sentiment = .num 0) ∧
    (getField fields "keyword_mentioned" = none →
      (chartEventOfFields fields).keyword_mentioned = .str "") ∧
    (getField fields "message_length" = none →
      (chartEventOfFields fields).message_length = .num 0) := by
  refine ⟨?_, rfl, ?_, ?_, ?_, ?_, ?_, ?_, ?_⟩
  · rfl
  all_goals intro h
  all_goals simp [chartEventOfFields, h]

/-- Witness for C3: decoding the empty object succeeds and every one of the
seven absent fields receives its chart-sink default. -/
theorem chart_default_policy_witness :
    (chartEventOfFields []).message = .str "" ∧
    (chartEventOfFields []).author = .str "unknown" ∧
    (chartEventOfFields []).timestamp = .str "" ∧
    (chartEventOfFields []).category = .str "unknown" ∧
    (chartEventOfFields []).sentiment = .num 0 ∧
    (chartEventOfFields []).keyword_mentioned = .str "" ∧
    (chartEventOfFields []).message_length = .num 0 :=
  ⟨(chart_default_policy []).2.2.1 rfl,
   (chart_default_policy []).2.2.2.1 rfl,
   (chart_default_policy []).2.2.2.2.1 rfl,
   (chart_default_policy []).2.2.2.2.2.1 rfl,
   (chart_default_policy []).2.2.2.2.2.2.1 rfl,
   (chart_default_policy []).2.2.2.2.2.2.2.1 rfl,
   (chart_default_policy []).2.2.2.2.2.2.2.2 rfl⟩

/-- Recording one event moves exactly that event's author cell: sum up by the
sentiment, count up by one; every other author's cell is untouched. -/
theorem incLookup_incRecord (e : SentimentEvent) (a : String) :
    ∀ st : List (String × Rat × Nat),
      incLookup (incRecord st e) a
        = if e.author = a
            then ((incLookup st a).1 + e.sentiment, (incLookup st a).2 + 1)
            else incLookup st a := by
  intro st
  induction st with
  | nil =>
    by_cases h : e.author = a
    · subst h; simp [incRecord, incLookup]
    · simp [incRecord, incLookup, h]
  | cons hd tl ih =>
    obtain ⟨b, s, c⟩ := hd
    by_cases h1 : e.author = b
    · subst h1
      by_cases h2 : e.author = a
      · subst h2; simp [incRecord, incLookup]
      · simp [incRecord, incLookup, h2]
    · by_cases h2 : b = a
      · subst h2; simp [incRecord, incLookup, h1]
      · simp [incRecord, incLookup, h1, h2, ih]

/-- The incremental state after a whole event list holds, per author, the sum
and the count of that author's retained sentiments. -/
theorem incLookup_incRecordAll (events : List SentimentEvent) :
    ∀ (st : List (String × Rat × Nat)) (a : String),
      incLookup (incRecordAll st events) a
        = ((incLookup st a).1 + (authorSentiments events a).sum,
           (incLookup st a).2 + (authorSentiments events a).length) := by
  induction events with
  | nil => intro st a; simp [incRecordAll, authorSentiments]
  | cons e rest ih =>
    intro st a
    have hrec : incRecordAll st (e :: rest) = incRecordAll (incRecord st e) rest := rfl
    rw [hrec, ih (incRecord st e) a, incLookup_incRecord e a st]
    by_cases h : e.author = a
    · simp [authorSentiments, h, Prod.ext_iff]
      constructor
      · ring
      · omega
    · simp [authorSentiments, h]

/-- C8: For every finite event sequence the incrementally maintained
mean-sentiment-by-author (running sum and count per author) equals, for every
author, the mean recomputed from the full retained history of that author's
sentiments — exactly, since sentiments are modelled as rationals. -/
theorem incremental_mean_matches_history (events : List SentimentEvent)
    (a : String) :
    incMean (incRecordAll [] events) a
      = historyMean (historyRecordAll [] events) a := by
  have h := incLookup_incRecordAll events [] a
  simp [incLookup] at h
  simp [incMean, historyMean, historyRecordAll, h]

end Buzzline
